import Mathlib

/-!
Verification development for the Aqua-ML adsorption-capacity application.

The Python source is embedded shallowly:
* pandas cells become `Option ℚ` (`none` models a missing value / NaN after
  `pd.to_numeric(..., errors="coerce")`);
* per-row dataframe operations of `src/features.py` become functions on row
  structures, with explicit presence flags for the elemental columns, since
  `add_elemental_ratios` branches on column existence;
* external library calls (scikit-learn's `train_test_split` and
  `RandomizedSearchCV`) are modelled by their documented observable behaviour
  (split sizes / maximum score over the sampled configurations).
-/

namespace AquaML

/-! ### Reference descriptor table (`src/features.py`, `_pharm_data`) -/

/-- One row of the fixed solute-descriptor reference table: a substance code
and the five descriptor values E, S, A, B, V. -/
structure PharmRef where
  code : String
  E : ℚ
  S : ℚ
  A : ℚ
  B : ℚ
  V : ℚ
deriving DecidableEq

/-- The 21-row reference table `_pharm_data` of `src/features.py`. -/
def _pharm_data : List PharmRef :=
  [ ⟨"PHE",  0.85, 0.95, 0.30, 0.78, 1.1156⟩,
    ⟨"APAP", 1.06, 1.63, 1.04, 0.86, 1.1724⟩,
    ⟨"ASA",  0.78, 1.69, 0.71, 0.67, 1.2879⟩,
    ⟨"BENZ", 1.03, 1.31, 0.31, 0.69, 1.3133⟩,
    ⟨"CAF",  1.50, 1.72, 0.05, 1.28, 1.3632⟩,
    ⟨"CIP",  2.20, 2.34, 0.70, 2.52, 2.3040⟩,
    ⟨"CIT",  1.83, 1.99, 0.00, 1.53, 2.5328⟩,
    ⟨"DCF",  1.81, 1.85, 0.55, 0.77, 2.0250⟩,
    ⟨"FLX",  1.23, 1.30, 0.12, 1.03, 2.2403⟩,
    ⟨"IBU",  0.73, 0.70, 0.56, 0.79, 1.7771⟩,
    ⟨"MTZ",  1.12, 1.79, 0.37, 1.04, 1.1919⟩,
    ⟨"NPX",  1.51, 2.02, 0.60, 0.67, 1.7821⟩,
    ⟨"NOR",  1.98, 2.50, 0.05, 2.39, 2.2724⟩,
    ⟨"OTC",  3.60, 3.05, 1.65, 3.50, 3.1579⟩,
    ⟨"SA",   0.90, 0.85, 0.73, 0.37, 0.9904⟩,
    ⟨"SDZ",  2.08, 2.55, 0.65, 1.37, 1.7225⟩,
    ⟨"SMR",  2.10, 2.65, 0.65, 1.42, 1.8634⟩,
    ⟨"SMT",  2.13, 2.53, 0.59, 1.53, 2.0043⟩,
    ⟨"SMX",  1.89, 2.23, 0.58, 1.29, 1.7244⟩,
    ⟨"TC",   3.50, 3.60, 1.35, 3.29, 3.0992⟩,
    ⟨"CBZ",  2.15, 1.90, 0.50, 1.15, 1.8106⟩ ]

/-- Whitespace test used by the code normalisation (`str.strip()` removes
leading and trailing whitespace). -/
def isSpaceChar (c : Char) : Bool := c = ' ' || c = '\t' || c = '\n' || c = '\r'

/-- ASCII uppercase of one character (`str.upper()`; the substance codes are
ASCII). -/
def upperChar (c : Char) : Char :=
  if 97 ≤ c.toNat ∧ c.toNat ≤ 122 then Char.ofNat (c.toNat - 32) else c

/-- Strip leading and trailing whitespace from a character list. -/
def trimChars (l : List Char) : List Char :=
  ((l.dropWhile isSpaceChar).reverse.dropWhile isSpaceChar).reverse

/-- Code normalisation used on both sides of the merge:
`str.strip().str.upper()` in the Python source. -/
def normCode (s : String) : String := String.mk ((trimChars s.data).map upperChar)

/-- Column-label normalisation `df.columns.astype(str).str.strip()` used by
`prepare_ml_data` and `DomainFE.transform`. -/
def stripLabel (s : String) : String := String.mk (trimChars s.data)

/-- The left-merge of `add_pharm_features` on `pharm_code_norm`, restricted to
one input row: the first reference row whose normalised code equals the
normalised target code (codes in the table are unique, so pandas' left merge
adds at most this one match). -/
def pharmLookup (s : String) : Option PharmRef :=
  _pharm_data.find? (fun p => normCode p.code == normCode s)

/-! ### Row model for the feature-engineering chain -/

/-- Presence flags for the five elemental weight-percent columns
(`C_percent` .. `S_percent`); `add_elemental_ratios` branches on
column existence. -/
structure ElemCols where
  hasC : Bool
  hasH : Bool
  hasO : Bool
  hasN : Bool
  hasS : Bool
deriving DecidableEq

/-- One raw input row as seen by `add_pharm_features`.  The descriptor cells
`E0` .. `V0` are `Option (Option ℚ)`: the outer layer is column presence
(`clean_pharm_features` branches on `c in df.columns`), the inner layer is the
cell value after numeric coercion.  Remaining numeric columns are kept as an
association list. -/
structure RawRow where
  target : String
  E0 : Option (Option ℚ)
  S0 : Option (Option ℚ)
  A0 : Option (Option ℚ)
  B0 : Option (Option ℚ)
  V0 : Option (Option ℚ)
  C_percent : Option ℚ
  H_percent : Option ℚ
  O_percent : Option ℚ
  N_percent : Option ℚ
  S_percent : Option ℚ
  atmosphere : Option String
  other : List (String × Option ℚ)
deriving DecidableEq

/-- A row after `add_pharm_features`: the raw row plus the five temporary
`__map_*` columns produced by the left merge. -/
structure MergedRow where
  raw : RawRow
  mapE : Option ℚ
  mapS : Option ℚ
  mapA : Option ℚ
  mapB : Option ℚ
  mapV : Option ℚ
deriving DecidableEq

/-- `add_pharm_features` (`src/features.py` lines 47-72), per row: normalise
the target code and left-merge the descriptor columns into temporary
`__map_*` fields; an unmatched code leaves all five `none`. -/
def add_pharm_features (r : RawRow) : MergedRow :=
  match pharmLookup r.target with
  | some p => ⟨r, some p.E, some p.S, some p.A, some p.B, some p.V⟩
  | none => ⟨r, none, none, none, none, none⟩

/-- A row after `clean_pharm_features`: the `__map_*` columns have been folded
into definitive `E` .. `V` columns and dropped. -/
structure CleanRow where
  target : String
  E : Option ℚ
  S : Option ℚ
  A : Option ℚ
  B : Option ℚ
  V : Option ℚ
  C_percent : Option ℚ
  H_percent : Option ℚ
  O_percent : Option ℚ
  N_percent : Option ℚ
  S_percent : Option ℚ
  atmosphere : Option String
  other : List (String × Option ℚ)
deriving DecidableEq

/-- One descriptor column of `clean_pharm_features`: if the definitive column
already exists, coerce it and fill the holes from the temporary column
(`pd.to_numeric(df[c], errors="coerce").fillna(df[tmpc])`); otherwise create
it from the temporary column. -/
def cleanDescCell (existing : Option (Option ℚ)) (mapped : Option ℚ) : Option ℚ :=
  match existing with
  | some (some v) => some v
  | some none => mapped
  | none => mapped

/-- `clean_pharm_features` (`src/features.py` lines 75-107), per row: move the
`__map_*` values into `E` .. `V` (keeping pre-existing numeric cell values),
then drop the temporary columns and `pharm_code_norm`; the final
`pd.to_numeric` pass is the identity on already-numeric cells. -/
def clean_pharm_features (m : MergedRow) : CleanRow :=
  { target := m.raw.target
    E := cleanDescCell m.raw.E0 m.mapE
    S := cleanDescCell m.raw.S0 m.mapS
    A := cleanDescCell m.raw.A0 m.mapA
    B := cleanDescCell m.raw.B0 m.mapB
    V := cleanDescCell m.raw.V0 m.mapV
    C_percent := m.raw.C_percent
    H_percent := m.raw.H_percent
    O_percent := m.raw.O_percent
    N_percent := m.raw.N_percent
    S_percent := m.raw.S_percent
    atmosphere := m.raw.atmosphere
    other := m.raw.other }

/-- Atomic weight of carbon (g/mol), the `aw` dict of `add_elemental_ratios`. -/
def aw_C : ℚ := 12.011

/-- Atomic weight of hydrogen (g/mol). -/
def aw_H : ℚ := 1.008

/-- Atomic weight of oxygen (g/mol). -/
def aw_O : ℚ := 15.999

/-- Atomic weight of nitrogen (g/mol). -/
def aw_N : ℚ := 14.007

/-- Atomic weight of sulfur (g/mol). -/
def aw_S : ℚ := 32.06

/-- A row after `add_elemental_ratios`: the cleaned row plus the derived
`C_molar` and the four molar-ratio columns. -/
structure ERRow where
  target : String
  E : Option ℚ
  S : Option ℚ
  A : Option ℚ
  B : Option ℚ
  V : Option ℚ
  C_percent : Option ℚ
  H_percent : Option ℚ
  O_percent : Option ℚ
  N_percent : Option ℚ
  S_percent : Option ℚ
  C_molar : Option ℚ
  H_C_molar : Option ℚ
  O_C_molar : Option ℚ
  N_C_molar : Option ℚ
  S_C_molar : Option ℚ
  atmosphere : Option String
  other : List (String × Option ℚ)
deriving DecidableEq

/-- Copy the carried-over columns of a cleaned row into an `ERRow` with all
five derived columns still empty. -/
def ERRow.ofClean (p : CleanRow) : ERRow :=
  { target := p.target
    E := p.E, S := p.S, A := p.A, B := p.B, V := p.V
    C_percent := p.C_percent
    H_percent := p.H_percent
    O_percent := p.O_percent
    N_percent := p.N_percent
    S_percent := p.S_percent
    C_molar := none
    H_C_molar := none
    O_C_molar := none
    N_C_molar := none
    S_C_molar := none
    atmosphere := p.atmosphere
    other := p.other }

/-- The computation block of `add_elemental_ratios` (`src/features.py` lines
132-150), before the final safety pass: on a row where `C_percent` is present
and strictly positive (`maskC`), set `C_molar` to `C_percent / aw_C` and, for
each elemental column that exists, divide its molar quantity by `C_molar`;
on every other row all five derived columns stay missing. -/
def add_elemental_ratios_raw (cols : ElemCols) (p : CleanRow) : ERRow :=
  if cols.hasC then
    match p.C_percent with
    | some c =>
      if 0 < c then
        let denom := c / aw_C
        { ERRow.ofClean p with
          C_molar := some denom
          H_C_molar := if cols.hasH then p.H_percent.map (fun h => h / aw_H / denom) else none
          O_C_molar := if cols.hasO then p.O_percent.map (fun o => o / aw_O / denom) else none
          N_C_molar := if cols.hasN then p.N_percent.map (fun n => n / aw_N / denom) else none
          S_C_molar := if cols.hasS then p.S_percent.map (fun s => s / aw_S / denom) else none }
      else ERRow.ofClean p
    | none => ERRow.ofClean p
  else ERRow.ofClean p

/-- The safety pass of `add_elemental_ratios` (`src/features.py` lines
152-156) on one cell: `df.loc[df[r] < 0, r] = 0` replaces a negative value by
`0` and leaves a missing value missing. -/
def clampNeg (o : Option ℚ) : Option ℚ := o.map (fun x => if x < 0 then 0 else x)

/-- `add_elemental_ratios` (`src/features.py` lines 110-158), per row: the raw
computation followed by the safety pass over the five derived columns. -/
def add_elemental_ratios (cols : ElemCols) (p : CleanRow) : ERRow :=
  let r := add_elemental_ratios_raw cols p
  { r with
    C_molar := clampNeg r.C_molar
    H_C_molar := clampNeg r.H_C_molar
    O_C_molar := clampNeg r.O_C_molar
    N_C_molar := clampNeg r.N_C_molar
    S_C_molar := clampNeg r.S_C_molar }

/-- Selector for the five derived columns of `add_elemental_ratios`. -/
inductive RatioField where
  | cm
  | hc
  | oc
  | nc
  | sc
deriving DecidableEq

/-- Read one of the five derived columns off an `ERRow`. -/
def ERRow.derived (d : ERRow) : RatioField → Option ℚ
  | .cm => d.C_molar
  | .hc => d.H_C_molar
  | .oc => d.O_C_molar
  | .nc => d.N_C_molar
  | .sc => d.S_C_molar

/-- The five descriptor columns produced for a row by the
`add_pharm_features` / `clean_pharm_features` chain. -/
def derivedDescriptors (r : RawRow) : Option ℚ × Option ℚ × Option ℚ × Option ℚ × Option ℚ :=
  let p := clean_pharm_features (add_pharm_features r)
  (p.E, p.S, p.A, p.B, p.V)

/-! ### `DomainFE` (`src/preprocessing.py` lines 28-65) -/

/-- A cell of the projected output frame: numeric after `pd.to_numeric`, or
categorical after `astype("category")`. -/
inductive CellVal where
  | num (v : Option ℚ)
  | cat (v : Option String)
deriving DecidableEq

/-- Column existence in the frame produced by the feature-engineering chain:
the descriptor, target and atmosphere columns are always there, the elemental
columns per the presence flags, the derived columns exactly when their inputs
were columns of the frame, and anything else per the row's association list. -/
def colExists (cols : ElemCols) (d : ERRow) (c : String) : Bool :=
  if c = "Target_Phar" then true
  else if c = "E" ∨ c = "S" ∨ c = "A" ∨ c = "B" ∨ c = "V" then true
  else if c = "Activation_Atmosphere" then true
  else if c = "C_percent" then cols.hasC
  else if c = "H_percent" then cols.hasH
  else if c = "O_percent" then cols.hasO
  else if c = "N_percent" then cols.hasN
  else if c = "S_percent" then cols.hasS
  else if c = "C_molar" then cols.hasC
  else if c = "H_C_molar" then cols.hasC && cols.hasH
  else if c = "O_C_molar" then cols.hasC && cols.hasO
  else if c = "N_C_molar" then cols.hasC && cols.hasN
  else if c = "S_C_molar" then cols.hasC && cols.hasS
  else (d.other.find? (fun q => q.1 = c)).isSome

/-- Numeric view of a named column of a derived row (the `pd.to_numeric`
coercion of `DomainFE.transform` is the identity on already-numeric cells and
turns the target string column into a missing value). -/
def ERRow.numValue (d : ERRow) (c : String) : Option ℚ :=
  if c = "E" then d.E
  else if c = "S" then d.S
  else if c = "A" then d.A
  else if c = "B" then d.B
  else if c = "V" then d.V
  else if c = "C_percent" then d.C_percent
  else if c = "H_percent" then d.H_percent
  else if c = "O_percent" then d.O_percent
  else if c = "N_percent" then d.N_percent
  else if c = "S_percent" then d.S_percent
  else if c = "C_molar" then d.C_molar
  else if c = "H_C_molar" then d.H_C_molar
  else if c = "O_C_molar" then d.O_C_molar
  else if c = "N_C_molar" then d.N_C_molar
  else if c = "S_C_molar" then d.S_C_molar
  else if c = "Target_Phar" then none
  else ((d.other.find? (fun q => q.1 = c)).bind (fun q => q.2))

/-- The value of a named column of a derived row after the type-safety pass of
`DomainFE.transform`: categorical for the atmosphere column, numeric
otherwise. -/
def cellValue (d : ERRow) (c : String) : CellVal :=
  if c = "Activation_Atmosphere" then .cat d.atmosphere else .num (d.numValue c)

/-- The `DomainFE` transformer of `src/preprocessing.py`: its only state is
the constructor arguments; `fit` learns nothing. -/
structure DomainFE where
  num_feats : List String
  cat_feats : List String
  target_col : String
deriving DecidableEq

/-- `DomainFE.fit` (`src/preprocessing.py` lines 42-44): there is no learned
parameter, the estimator is returned unchanged. -/
def DomainFE.fit (fe : DomainFE) (X : List RawRow) (y : Option (List ℚ)) : DomainFE := fe

/-- The full per-row derivation chain of `DomainFE.transform`
(`src/preprocessing.py` lines 46-65): descriptor join, cleanup, elemental
ratios. -/
def deriveRow (cols : ElemCols) (r : RawRow) : ERRow :=
  add_elemental_ratios cols (clean_pharm_features (add_pharm_features r))

/-- `DomainFE.transform` (`src/preprocessing.py` lines 46-65), per batch: run
the derivation chain on every row, coerce types (identity in this model) and
project down to the declared feature columns that exist in the frame. -/
def DomainFE.transform (fe : DomainFE) (cols : ElemCols) (X : List RawRow) :
    List (List (String × CellVal)) :=
  X.map (fun r =>
    let d := deriveRow cols r
    ((fe.num_feats ++ fe.cat_feats).filter (fun c => colExists cols d c)).map
      (fun c => (c, cellValue d c)))

/-! ### Evaluation harness ranking (`src/evaluation.py` lines 256-269) -/

/-- One row of the per-candidate results table assembled by
`evaluate_and_plot` (`src/evaluation.py` lines 214-219). -/
structure EvalResult where
  model : String
  cv_r2 : ℚ
  cv_rmse : ℚ
  cv_mae : ℚ
  train_r2 : ℚ
  train_rmse : ℚ
  train_mae : ℚ
  test_r2 : ℚ
  test_rmse : ℚ
  test_mae : ℚ
deriving DecidableEq

/-- The ranking order of `evaluate_and_plot`:
`sort_values(["cv_rmse", "cv_r2", "test_r2"], ascending=[True, False, False])`,
i.e. cross-validated RMSE ascending, then cross-validated R2 descending, then
test R2 descending. -/
def rankLe (a b : EvalResult) : Prop :=
  a.cv_rmse < b.cv_rmse ∨
    (a.cv_rmse = b.cv_rmse ∧
      (b.cv_r2 < a.cv_r2 ∨ (b.cv_r2 = a.cv_r2 ∧ b.test_r2 ≤ a.test_r2)))

instance : DecidableRel rankLe := fun a b => by
  unfold rankLe; infer_instance

/-- The sorted results table `res_df_sorted` of `evaluate_and_plot`. -/
def results_sorted (l : List EvalResult) : List EvalResult :=
  List.insertionSort rankLe l

/-- The winner selection of `evaluate_and_plot`: the rank-0 row of the sorted
table (`best_name = res_df_sorted.iloc[0]["model"]`), or nothing for an empty
results table. -/
def best_model (l : List EvalResult) : Option EvalResult :=
  (results_sorted l).head?

/-! ### Hyperparameter tuner (`src/tunning.py`, `run_hpo_top2`) -/

/-- One HPO candidate as consumed by `run_hpo_top2`.  The randomized search
(`RandomizedSearchCV`, an external library) is modelled by its observable
behaviour: `space` holds the cross-validated R2 score of every configuration
in the candidate's parameter grid, `sampled` the scores of the `n_iter`
configurations the search actually draws (a sub-collection of `space`), and
`best_score_` is the maximum over `sampled`.  `pre_cv_r2` is the candidate's
cross-validated R2 from the evaluation harness, and `hasPipe` whether the
candidate's pipeline is available in the pool (`name2pipe`). -/
structure HPOCandidate where
  name : String
  hasPipe : Bool
  space : List ℚ
  sampled : List ℚ
  pre_cv_r2 : ℚ
deriving DecidableEq

/-- The per-candidate search outcome inside `run_hpo_top2`: skipped (`none`)
when the pipeline is missing or the parameter distribution is empty
(`src/tunning.py` lines 80-90), otherwise the best score over the sampled
configurations. -/
def searchBestScore (c : HPOCandidate) : Option ℚ :=
  if c.hasPipe && !c.space.isEmpty then c.sampled.max? else none

/-- One iteration of the winner-tracking loop of `run_hpo_top2`
(`src/tunning.py` lines 79-119): a skipped candidate leaves the running best
unchanged; otherwise the candidate replaces the running best exactly when its
score is strictly greater (`if rsearch.best_score_ > best_score`). -/
def hpoStep (best : Option (String × ℚ)) (c : HPOCandidate) : Option (String × ℚ) :=
  match searchBestScore c with
  | none => best
  | some s =>
    match best with
    | none => some (c.name, s)
    | some (n, b) => if b < s then some (c.name, s) else some (n, b)

/-- `run_hpo_top2` (`src/tunning.py` lines 51-146): take the two top-ranked
candidates, run the search on each, and return the best-scoring refit
pipeline; raise when no candidate produced a usable result. -/
def run_hpo_top2 (cands : List HPOCandidate) : Except String (String × ℚ) :=
  match (cands.take 2).foldl hpoStep none with
  | none => Except.error "run_hpo_top2: HPO sonucunda uygun bir model cikmadi"
  | some r => Except.ok r

/-! ### Feature-set resolver (`src/preprocessing.py`, `prepare_ml_data`) -/

/-- The canonical numeric feature superset `num_feats_all` of
`prepare_ml_data` (`src/preprocessing.py` lines 90-110). -/
def canonical_num_feats : List String :=
  [ "Agent/Sample(g/g)",
    "Soaking_Time(min)",
    "Soaking_Temp(K)",
    "Activation_Time(min)",
    "Activation_Temp(K)",
    "Activation_Heating_Rate (K/min)",
    "BET_Surface_Area(m2/g)",
    "Total_Pore_Volume(cm3/g)",
    "Micropore_Volume(cm3/g)",
    "Average_Pore_Diameter(nm)",
    "pHpzc",
    "C_molar", "H_C_molar", "O_C_molar", "N_C_molar", "S_C_molar",
    "Initial_Concentration(mg/L)",
    "Solution_pH",
    "Temperature(K)",
    "Agitation_speed(rpm)",
    "Dosage(g/L)",
    "Contact_Time(min)",
    "E", "S", "A", "B", "V" ]

/-- An input table as far as `prepare_ml_data`'s control flow can observe it:
its column labels and its row count. -/
structure MLTable where
  cols : List String
  nrows : Nat
deriving DecidableEq

/-- Number of test rows chosen by scikit-learn's `train_test_split` for
`test_size = TEST_SIZE = 0.2` (`src/config.py`): the ceiling of `0.2 * n`,
i.e. `⌈n / 5⌉`.  Modelled from the library's documented behaviour. -/
def nTestOfRows (n : Nat) : Nat := (n + 4) / 5

/-- The successful output of `prepare_ml_data` restricted to what the claims
observe: the resolved feature lists, the non-fatally reported missing
canonical features, and the split sizes. -/
structure PrepOut where
  num_feats : List String
  cat_feats : List String
  missing_num_feats : List String
  n_train : Nat
  n_test : Nat
deriving DecidableEq

/-- `prepare_ml_data` (`src/preprocessing.py` lines 67-168): trim the column
labels, require the target column, resolve the numeric and categorical
feature lists (raising when both are empty), then split.  The split step
embeds scikit-learn's `train_test_split`, which raises when the resulting
train or test set would be empty; every later step (`pd.to_numeric` with
`errors="coerce"`, `astype("category")`, encoder construction, index lookup)
is total. -/
def prepare_ml_data (t : MLTable) (target_col : String) : Except String PrepOut :=
  let cols := t.cols.map stripLabel
  if target_col ∈ cols then
    let num_feats := canonical_num_feats.filter (fun c => decide (c ∈ cols))
    let missing := canonical_num_feats.filter (fun c => decide (c ∉ cols))
    let cat_feats := if "Activation_Atmosphere" ∈ cols then ["Activation_Atmosphere"] else []
    if num_feats.isEmpty && cat_feats.isEmpty then
      Except.error "Hic bir ozellik bulunamadi (num_feats ve cat_feats bos)"
    else
      let n_test := nTestOfRows t.nrows
      let n_train := t.nrows - n_test
      if n_train = 0 || n_test = 0 then
        Except.error "train_test_split: resulting train or test set is empty"
      else
        Except.ok ⟨num_feats, cat_feats, missing, n_train, n_test⟩
  else Except.error "Hedef kolon yok"

/-- Whether a `prepare_ml_data` run raised. -/
def prepRaises (e : Except String PrepOut) : Bool :=
  match e with
  | Except.error _ => true
  | Except.ok _ => false

/-! ### Sweep loop (`aqua_ml_app.py` lines 814-826 and its siblings) -/

/-- The single-field sweep loop of the app (for example the `Solution_pH`
sweep, `aqua_ml_app.py` lines 814-826): for each grid value build the test
row by overriding one field of the base record, try the pipeline, append the
pair on success, and silently skip the grid point when the predictor raises
(`except: pass`). -/
def sweep_field {α : Type} (setField : α → ℚ → α) (predict : α → Option ℚ)
    (base : α) : List ℚ → List (ℚ × ℚ)
  | [] => []
  | v :: vs =>
    match predict (setField base v) with
    | some q => (v, q) :: sweep_field setField predict base vs
    | none => sweep_field setField predict base vs

/-! ### Cross-category comparison (`aqua_ml_app.py` lines 517-531) -/

/-- The 21 substance codes of the app's `solute_params` dict, in insertion
order (`aqua_ml_app.py` lines 200-222). -/
def solute_codes : List String :=
  [ "APAP", "ASA", "BENZ", "CAF", "CIP", "CIT", "DCF", "FLX", "IBU", "MTZ",
    "NPX", "NOR", "OTC", "SA", "SDZ", "SMR", "SMT", "SMX", "TC", "CBZ", "PHE" ]

/-- One entry of `comparison_results`: drug code, display name, predicted
response. -/
structure CompEntry where
  code : String
  name : String
  pred : ℚ
deriving DecidableEq

/-- The comparison loop of the app (`aqua_ml_app.py` lines 517-528): for each
code in `solute_params`, override the target field of the base record, try
the pipeline, and append on success (failures only emit a warning). -/
def comparison_loop (predict : String → Option ℚ) (dispName : String → String) :
    List String → List CompEntry
  | [] => []
  | c :: cs =>
    match predict c with
    | some q => ⟨c, dispName c, q⟩ :: comparison_loop predict dispName cs
    | none => comparison_loop predict dispName cs

/-- `comparison_results` of the app: the loop run over the full fixed code
set. -/
def comparison_results (predict : String → Option ℚ) (dispName : String → String) :
    List CompEntry :=
  comparison_loop predict dispName solute_codes

/-- The descending order used by
`sort_values('Predicted_qe', ascending=False)`. -/
def predGe (a b : CompEntry) : Prop := b.pred ≤ a.pred

instance : DecidableRel predGe := fun a b => by
  unfold predGe; infer_instance

/-- The sorted comparison table `comparison_df` of the app
(`aqua_ml_app.py` line 531). -/
def comparison_sorted (predict : String → Option ℚ) (dispName : String → String) :
    List CompEntry :=
  List.insertionSort predGe (comparison_results predict dispName)

/-! ### Single-entry submission (`aqua_ml_app.py` lines 451-506) -/

/-- A submitted single record, restricted to the fields the validation gates
read; the rest of the form is carried opaquely. -/
structure SingleInput where
  target_phar : Option String
  atmosphere : Option String
  total_pore : Option ℚ
  micro_pore : Option ℚ
  others : List (String × Option ℚ)
deriving DecidableEq

/-- Outcome of one submission of the single-entry form. -/
inductive SingleOutcome where
  | stoppedNoDrug
  | stoppedNoAtmosphere
  | stoppedPoreInconsistent
  | predicted (q : ℚ)
  | predictionFailed
deriving DecidableEq

/-- The single-entry submission handler (`aqua_ml_app.py` lines 451-506): the
drug and atmosphere gates (`st.stop()` on failure), then the pore-volume
consistency gate (lines 494-500: both volumes present and micropore volume
strictly greater than total pore volume reports an error and stops), and only
then the pipeline's predict. -/
def single_submit (inp : SingleInput) (predict : SingleInput → Option ℚ) : SingleOutcome :=
  match inp.target_phar with
  | none => .stoppedNoDrug
  | some _ =>
    match inp.atmosphere with
    | none => .stoppedNoAtmosphere
    | some _ =>
      let poreBad :=
        match inp.total_pore, inp.micro_pore with
        | some t, some m => decide (t < m)
        | _, _ => false
      if poreBad then .stoppedPoreInconsistent
      else
        match predict inp with
        | some q => .predicted q
        | none => .predictionFailed

/-! ### Concrete inputs used by witnesses and counterexamples -/

/-- All five elemental columns present, as in the application's schema. -/
def allElemCols : ElemCols := ⟨true, true, true, true, true⟩

/-- A cleaned row with positive carbon but a negative hydrogen percentage
(adversarial input): the raw H/C molar ratio computes to -1. -/
def negHRow : CleanRow :=
  { target := "CIP"
    E := none, S := none, A := none, B := none, V := none
    C_percent := some 12.011
    H_percent := some (-1.008)
    O_percent := some 0
    N_percent := some 0
    S_percent := some 0
    atmosphere := some "N2"
    other := [] }

/-- A cleaned row whose carbon percentage is zero. -/
def zeroCRow : CleanRow := { negHRow with C_percent := some 0 }

/-- A raw record (no descriptor columns) whose substance code normalises to
the known code CIP. -/
def cipRow : RawRow :=
  { target := "  cip "
    E0 := none, S0 := none, A0 := none, B0 := none, V0 := none
    C_percent := some 80
    H_percent := some 2
    O_percent := some 10
    N_percent := some 1
    S_percent := some 1
    atmosphere := some "N2"
    other := [] }

/-- The CIP row of the reference table. -/
def cipRef : PharmRef := ⟨"CIP", 2.20, 2.34, 0.70, 2.52, 2.3040⟩

/-- An evaluation-results row with the better cross-validated RMSE. -/
def evalHistGBR : EvalResult := ⟨"HistGBR", 1, 10, 4, 1, 3, 1, 1, 11, 5⟩

/-- An evaluation-results row with the worse cross-validated RMSE. -/
def evalRF : EvalResult := ⟨"RandomForest", 0, 12, 5, 1, 3, 1, 0, 13, 6⟩

/-- An HPO candidate whose search samples only the configuration scoring 5,
although its space also contains the pre-tuning configuration scoring 9. -/
def hpoCandA : HPOCandidate := ⟨"HistGBR", true, [9, 5], [5], 9⟩

/-- A second HPO candidate; its search samples only the configuration
scoring 4. -/
def hpoCandB : HPOCandidate := ⟨"CatBoost", true, [8, 4], [4], 8⟩

/-- A table that has the target column and a resolvable numeric feature but
no rows. -/
def smallTable : MLTable := ⟨["qe(mg/g)", "Solution_pH"], 0⟩

/-- A submitted single record whose micropore volume exceeds its total pore
volume. -/
def badPoreInput : SingleInput := ⟨some "CIP", some "N2", some 1, some 2, []⟩

/-! ## Theorems -/

/-- The safety pass of `add_elemental_ratios` applied to each of the five
derived columns, made explicit. -/
theorem derived_eq_clampNeg_raw (cols : ElemCols) (p : CleanRow) (f : RatioField) :
    (add_elemental_ratios cols p).derived f =
      clampNeg ((add_elemental_ratios_raw cols p).derived f) := by
  cases f <;> rfl

/-- Every value the safety pass lets through is nonnegative. -/
theorem clampNeg_nonneg (o : Option ℚ) (x : ℚ) (h : clampNeg o = some x) : 0 ≤ x := by
  cases o with
  | none => simp [clampNeg] at h
  | some v =>
    simp only [clampNeg, Option.map_some', Option.some.injEq] at h
    subst h
    by_cases hv : v < 0
    · simp [hv]
    · simpa [hv] using le_of_not_lt hv

/-- The safety pass turns a negative value into 0. -/
theorem clampNeg_of_neg (o : Option ℚ) (v : ℚ) (ho : o = some v) (hv : v < 0) :
    clampNeg o = some 0 := by
  subst ho
  simp [clampNeg, hv]

/-- Claim C1, as stated, is false on the code: in `add_elemental_ratios` a
derived quantity that computes to a negative value is replaced by `0`, not by
a missing value.  On a row with positive carbon and hydrogen percentage
-1.008, the raw H/C molar ratio is -1, yet the output H/C column holds `0`
and is not null. -/
theorem C1_negative_ratio_not_nulled :
    (add_elemental_ratios_raw allElemCols negHRow).H_C_molar = some (-1) ∧
    (-1 : ℚ) < 0 ∧
    (add_elemental_ratios allElemCols negHRow).H_C_molar = some 0 ∧
    (add_elemental_ratios allElemCols negHRow).H_C_molar ≠ none := by
  have hraw : (add_elemental_ratios_raw allElemCols negHRow).H_C_molar = some (-1) := by
    norm_num [add_elemental_ratios_raw, allElemCols, negHRow, ERRow.ofClean, aw_C, aw_H]
  refine ⟨hraw, by norm_num, ?_, ?_⟩
  · rw [show (add_elemental_ratios allElemCols negHRow).H_C_molar =
        clampNeg ((add_elemental_ratios_raw allElemCols negHRow).H_C_molar) from rfl, hraw]
    norm_num [clampNeg]
  · rw [show (add_elemental_ratios allElemCols negHRow).H_C_molar =
        clampNeg ((add_elemental_ratios_raw allElemCols negHRow).H_C_molar) from rfl, hraw]
    simp [clampNeg]

/-- Claim C1, amended: for every input row and every one of the derived
quantities `C_molar`, H/C, O/C, N/C, S/C, a computed negative value is
clamped to `0` (not to null), so no derived ratio column of any output row
ever holds a negative number, and a missing value stays missing. -/
theorem C1_negative_ratio_clamped_to_zero (cols : ElemCols) (p : CleanRow) (f : RatioField) :
    (∀ x, (add_elemental_ratios cols p).derived f = some x → 0 ≤ x) ∧
    (∀ v, (add_elemental_ratios_raw cols p).derived f = some v → v < 0 →
      (add_elemental_ratios cols p).derived f = some 0) := by
  constructor
  · intro x hx
    rw [derived_eq_clampNeg_raw] at hx
    exact clampNeg_nonneg _ _ hx
  · intro v hv hneg
    rw [derived_eq_clampNeg_raw]
    exact clampNeg_of_neg _ _ hv hneg

/-- Witness for the amended claim C1, at the concrete adversarial row. -/
theorem C1_negative_ratio_clamped_to_zero_witness :
    (0 : ℚ) ≤ 0 ∧
    (add_elemental_ratios allElemCols negHRow).derived RatioField.hc = some 0 := by
  have hraw : (add_elemental_ratios_raw allElemCols negHRow).derived RatioField.hc =
      some (-1) := by
    norm_num [add_elemental_ratios_raw, allElemCols, negHRow, ERRow.ofClean, aw_C, aw_H,
      ERRow.derived]
  have hout := (C1_negative_ratio_clamped_to_zero allElemCols negHRow RatioField.hc).2
    (-1) hraw (by norm_num)
  exact ⟨(C1_negative_ratio_clamped_to_zero allElemCols negHRow RatioField.hc).1 0 hout, hout⟩

/-- Claim C2: on every row whose carbon percentage is missing or nonpositive
(and likewise when the carbon column is absent), `add_elemental_ratios`
leaves `C_molar` and all four molar ratios null; the embedded computation is
total, and its division by the carbon molar quantity occurs only inside the
branch where the carbon percentage is present and strictly positive. -/
theorem C2_no_carbon_all_null (cols : ElemCols) (p : CleanRow)
    (h : p.C_percent = none ∨ ∃ v, p.C_percent = some v ∧ v ≤ 0) :
    (add_elemental_ratios cols p).C_molar = none ∧
    (add_elemental_ratios cols p).H_C_molar = none ∧
    (add_elemental_ratios cols p).O_C_molar = none ∧
    (add_elemental_ratios cols p).N_C_molar = none ∧
    (add_elemental_ratios cols p).S_C_molar = none := by
  have hraw : add_elemental_ratios_raw cols p = ERRow.ofClean p := by
    rcases h with h | ⟨v, hv, hle⟩
    · cases hc : cols.hasC <;> simp [add_elemental_ratios_raw, hc, h]
    · cases hc : cols.hasC <;> simp [add_elemental_ratios_raw, hc, hv, not_lt.mpr hle]
  simp [add_elemental_ratios, hraw, ERRow.ofClean, clampNeg]

/-- Witness for claim C2 at a concrete row with zero carbon percentage. -/
theorem C2_no_carbon_all_null_witness :
    (add_elemental_ratios allElemCols zeroCRow).C_molar = none ∧
    (add_elemental_ratios allElemCols zeroCRow).H_C_molar = none ∧
    (add_elemental_ratios allElemCols zeroCRow).O_C_molar = none ∧
    (add_elemental_ratios allElemCols zeroCRow).N_C_molar = none ∧
    (add_elemental_ratios allElemCols zeroCRow).S_C_molar = none :=
  C2_no_carbon_all_null allElemCols zeroCRow (Or.inr ⟨0, rfl, le_refl 0⟩)

/-- Claim C3: on every RawRecord (which, per the data model, carries no
descriptor columns of its own), the descriptor join puts exactly the matched
reference row's five values into E, S, A, B, V, and leaves all five null for
a code with no match; the join is total, so it never fails on an unmatched
code. -/
theorem C3_descriptor_join (r : RawRow)
    (hE : r.E0 = none) (hS : r.S0 = none) (hA : r.A0 = none)
    (hB : r.B0 = none) (hV : r.V0 = none) :
    (∀ p, pharmLookup r.target = some p →
      derivedDescriptors r = (some p.E, some p.S, some p.A, some p.B, some p.V)) ∧
    (pharmLookup r.target = none →
      derivedDescriptors r = (none, none, none, none, none)) := by
  constructor
  · intro p hp
    simp [derivedDescriptors, clean_pharm_features, add_pharm_features, hp,
      cleanDescCell, hE, hS, hA, hB, hV]
  · intro hp
    simp [derivedDescriptors, clean_pharm_features, add_pharm_features, hp,
      cleanDescCell, hE, hS, hA, hB, hV]

/-- Witness for claim C3: the code `"  cip "` normalises to the known code
CIP and receives exactly the CIP reference values. -/
theorem C3_descriptor_join_witness :
    derivedDescriptors cipRow =
      (some cipRef.E, some cipRef.S, some cipRef.A, some cipRef.B, some cipRef.V) :=
  (C3_descriptor_join cipRow rfl rfl rfl rfl rfl).1 cipRef rfl

/-- Claim C4: the Domain Feature Deriver is pure.  `fit` returns the
estimator unchanged (it has no learned or mutated state), so deriving the
same batch after any fitting history yields identical output, and the batch
derivation is the independent per-record derivation (which is what makes
re-running it per sweep grid point sound). -/
theorem C4_transform_pure (fe : DomainFE) (cols : ElemCols)
    (X₁ X₂ : List RawRow) (y₁ y₂ : Option (List ℚ)) (X : List RawRow) :
    fe.fit X₁ y₁ = fe ∧
    (fe.fit X₁ y₁).transform cols X = (fe.fit X₂ y₂).transform cols X ∧
    fe.transform cols X = (X.map (fun r => fe.transform cols [r])).flatten := by
  refine ⟨rfl, rfl, ?_⟩
  induction X with
  | nil => rfl
  | cons r rs ih =>
    simp only [DomainFE.transform, List.map_cons, List.flatten_cons] at ih ⊢
    rw [← ih]
    rfl

/-- The ranking order is reflexive. -/
theorem rankLe_refl (a : EvalResult) : rankLe a a :=
  Or.inr ⟨rfl, Or.inr ⟨rfl, le_refl _⟩⟩

/-- The ranking order is total. -/
theorem rankLe_total (a b : EvalResult) : rankLe a b ∨ rankLe b a := by
  unfold rankLe
  rcases lt_trichotomy a.cv_rmse b.cv_rmse with h1 | h1 | h1
  · exact Or.inl (Or.inl h1)
  · rcases lt_trichotomy a.cv_r2 b.cv_r2 with h2 | h2 | h2
    · exact Or.inr (Or.inr ⟨h1.symm, Or.inl h2⟩)
    · rcases le_total b.test_r2 a.test_r2 with h3 | h3
      · exact Or.inl (Or.inr ⟨h1, Or.inr ⟨h2.symm, h3⟩⟩)
      · exact Or.inr (Or.inr ⟨h1.symm, Or.inr ⟨h2, h3⟩⟩)
    · exact Or.inl (Or.inr ⟨h1, Or.inl h2⟩)
  · exact Or.inr (Or.inl h1)

/-- The ranking order is transitive. -/
theorem rankLe_trans (a b c : EvalResult) (hab : rankLe a b) (hbc : rankLe b c) :
    rankLe a c := by
  unfold rankLe at hab hbc ⊢
  rcases hab with h1 | ⟨h1, h2⟩
  · rcases hbc with h1' | ⟨h1', _⟩
    · exact Or.inl (h1.trans h1')
    · exact Or.inl (h1' ▸ h1)
  · rcases hbc with h1' | ⟨h1', h2'⟩
    · exact Or.inl (h1 ▸ h1')
    · refine Or.inr ⟨h1.trans h1', ?_⟩
      rcases h2 with h2 | ⟨h2, h3⟩
      · rcases h2' with h2' | ⟨h2', _⟩
        · exact Or.inl (h2'.trans h2)
        · exact Or.inl (h2' ▸ h2)
      · rcases h2' with h2' | ⟨h2', h3'⟩
        · exact Or.inl (h2 ▸ h2')
        · exact Or.inr ⟨h2'.trans h2, h3'.trans h3⟩

instance : IsTotal EvalResult rankLe := ⟨rankLe_total⟩

instance : IsTrans EvalResult rankLe := ⟨rankLe_trans⟩

/-- Claim C5: for a non-empty results table, the sorted table produced by
`evaluate_and_plot` is sorted by cross-validated RMSE ascending with
cross-validated R2 then test R2 (both descending) as tie-breaks, and the
selected winner — the rank-0 row — is a candidate of the input set that this
order places at or before every candidate. -/
theorem C5_ranking_selects_minimum (l : List EvalResult) (b : EvalResult)
    (hb : best_model l = some b) :
    List.Sorted rankLe (results_sorted l) ∧ b ∈ l ∧ ∀ r ∈ l, rankLe b r := by
  have hs : List.Sorted rankLe (results_sorted l) :=
    List.sorted_insertionSort rankLe l
  have hperm : List.Perm (results_sorted l) l := List.perm_insertionSort rankLe l
  obtain ⟨tl, htl⟩ : ∃ tl, results_sorted l = b :: tl := by
    cases hres : results_sorted l with
    | nil => rw [best_model, hres] at hb; simp at hb
    | cons x xs =>
      rw [best_model, hres] at hb
      simp only [List.head?_cons, Option.some.injEq] at hb
      exact ⟨xs, by rw [hb]⟩
  refine ⟨hs, ?_, ?_⟩
  · exact hperm.mem_iff.mp (htl ▸ List.mem_cons_self b tl)
  · intro r hr
    have hr' : r ∈ results_sorted l := hperm.mem_iff.mpr hr
    rw [htl] at hr' hs
    rcases List.mem_cons.mp hr' with rfl | hmem
    · exact rankLe_refl r
    · exact List.rel_of_sorted_cons hs r hmem

/-- Witness for claim C5 on a concrete two-candidate results table. -/
theorem C5_ranking_selects_minimum_witness :
    List.Sorted rankLe (results_sorted [evalRF, evalHistGBR]) ∧
    evalHistGBR ∈ [evalRF, evalHistGBR] ∧
    ∀ r ∈ [evalRF, evalHistGBR], rankLe evalHistGBR r :=
  C5_ranking_selects_minimum [evalRF, evalHistGBR] evalHistGBR (by decide)

/-- The sweep loop collects exactly the pairs of the successful grid
points. -/
theorem sweep_field_eq_filterMap {α : Type} (setField : α → ℚ → α)
    (predict : α → Option ℚ) (base : α) (grid : List ℚ) :
    sweep_field setField predict base grid =
      grid.filterMap (fun v => (predict (setField base v)).map (fun q => (v, q))) := by
  induction grid with
  | nil => rfl
  | cons v vs ih =>
    cases h : predict (setField base v) <;>
      simp [sweep_field, h, ih, List.filterMap_cons]

/-- The grid values surviving the sweep loop are the successful grid points
in their original order. -/
theorem sweep_field_fst {α : Type} (setField : α → ℚ → α)
    (predict : α → Option ℚ) (base : α) (grid : List ℚ) :
    (sweep_field setField predict base grid).map Prod.fst =
      grid.filter (fun v => (predict (setField base v)).isSome) := by
  induction grid with
  | nil => rfl
  | cons v vs ih =>
    cases h : predict (setField base v) <;>
      simp [sweep_field, h, ih, List.filter_cons]

/-- The sweep loop never returns more pairs than grid points. -/
theorem sweep_field_length_le {α : Type} (setField : α → ℚ → α)
    (predict : α → Option ℚ) (base : α) (grid : List ℚ) :
    (sweep_field setField predict base grid).length ≤ grid.length := by
  induction grid with
  | nil => exact Nat.le_refl 0
  | cons v vs ih =>
    cases h : predict (setField base v) <;> simp [sweep_field, h] <;> omega

/-- Claim C6: a grid point whose prediction fails is dropped without
aborting the sweep (the loop is total), the returned pairs are exactly the
successful grid points in original grid order, and a partial result — fewer
pairs than grid points — is an ordinary return value. -/
theorem C6_sweep_drops_failures {α : Type} (setField : α → ℚ → α)
    (predict : α → Option ℚ) (base : α) (grid : List ℚ) :
    sweep_field setField predict base grid =
      grid.filterMap (fun v => (predict (setField base v)).map (fun q => (v, q))) ∧
    (sweep_field setField predict base grid).map Prod.fst =
      grid.filter (fun v => (predict (setField base v)).isSome) ∧
    (sweep_field setField predict base grid).length ≤ grid.length :=
  ⟨sweep_field_eq_filterMap setField predict base grid,
   sweep_field_fst setField predict base grid,
   sweep_field_length_le setField predict base grid⟩

/-- The codes kept by the comparison loop form a sublist of the iterated
code list. -/
theorem comparison_loop_codes_sublist (predict : String → Option ℚ)
    (dispName : String → String) (cs : List String) :
    List.Sublist ((comparison_loop predict dispName cs).map CompEntry.code) cs := by
  induction cs with
  | nil => exact List.Sublist.refl []
  | cons c cs ih =>
    cases h : predict c with
    | none =>
      simp only [comparison_loop, h]
      exact ih.cons c
    | some q =>
      simp only [comparison_loop, h, List.map_cons]
      exact ih.cons₂ c

/-- The fixed comparison code set has no duplicates. -/
theorem solute_codes_nodup : solute_codes.Nodup := by decide

instance : IsTotal CompEntry predGe :=
  ⟨fun a b => le_total b.pred a.pred⟩

instance : IsTrans CompEntry predGe :=
  ⟨fun _ _ _ hab hbc => le_trans hbc hab⟩

/-- Claim C7: the cross-category comparison returns at most 21 pairs, with
no duplicate category codes, sorted by predicted response descending. -/
theorem C7_comparison_sorted_nodup (predict : String → Option ℚ)
    (dispName : String → String) :
    (comparison_sorted predict dispName).length ≤ 21 ∧
    ((comparison_sorted predict dispName).map CompEntry.code).Nodup ∧
    List.Sorted predGe (comparison_sorted predict dispName) := by
  have hperm : List.Perm (comparison_sorted predict dispName)
      (comparison_results predict dispName) :=
    List.perm_insertionSort predGe _
  have hsub := comparison_loop_codes_sublist predict dispName solute_codes
  refine ⟨?_, ?_, List.sorted_insertionSort predGe _⟩
  · rw [hperm.length_eq]
    calc (comparison_results predict dispName).length
        = ((comparison_results predict dispName).map CompEntry.code).length :=
          (List.length_map _ _).symm
      _ ≤ solute_codes.length := hsub.length_le
      _ = 21 := rfl
  · rw [List.Perm.nodup_iff (hperm.map CompEntry.code)]
    exact List.Nodup.sublist hsub solute_codes_nodup

/-- A non-empty score list has a maximum. -/
theorem max?_isSome_of_ne_nil (l : List ℚ) (h : l ≠ []) : ∃ m, l.max? = some m := by
  cases l with
  | nil => exact absurd rfl h
  | cons a as => exact ⟨as.foldl max a, rfl⟩

/-- Every element of a score list is bounded by the fold of `max` from any
seed. -/
theorem le_foldl_max (l : List ℚ) : ∀ (a x : ℚ), x = a ∨ x ∈ l → x ≤ l.foldl max a := by
  induction l with
  | nil =>
    intro a x hx
    rcases hx with rfl | hx
    · exact le_refl x
    · simp at hx
  | cons b bs ih =>
    intro a x hx
    have step : (b :: bs).foldl max a = bs.foldl max (max a b) := rfl
    have hseed : max a b ≤ bs.foldl max (max a b) :=
      ih (max a b) (max a b) (Or.inl rfl)
    rw [step]
    rcases hx with rfl | hx
    · exact le_trans (le_max_left x b) hseed
    · rcases List.mem_cons.mp hx with rfl | hx
      · exact le_trans (le_max_right a x) hseed
      · exact ih (max a b) x (Or.inr hx)

/-- Every element of a score list is at most its maximum. -/
theorem le_of_mem_max? (l : List ℚ) (x m : ℚ) (hx : x ∈ l) (hm : l.max? = some m) :
    x ≤ m := by
  cases l with
  | nil => simp at hx
  | cons a as =>
    have : (a :: as).max? = some (as.foldl max a) := rfl
    rw [this] at hm
    cases hm
    rcases List.mem_cons.mp hx with h | h
    · exact le_foldl_max as a x (Or.inl h)
    · exact le_foldl_max as a x (Or.inr h)

/-- An auxiliary fact: a non-empty list is not `isEmpty`. -/
theorem isEmpty_false_of_ne_nil (l : List ℚ) (h : l ≠ []) : l.isEmpty = false := by
  cases l with
  | nil => exact absurd rfl h
  | cons a as => rfl

/-- Claim C8, as stated, is false on the code: with two candidates whose
parameter spaces both contain their pre-tuning configuration, the randomized
search can draw only worse-scoring configurations (it samples `n_iter`
configurations and has no obligation to include the incumbent), and
`run_hpo_top2` then returns a winner whose cross-validated R2 is strictly
below the better pre-tuning score. -/
theorem C8_winner_can_score_below_pre :
    hpoCandA.pre_cv_r2 ∈ hpoCandA.space ∧ hpoCandB.pre_cv_r2 ∈ hpoCandB.space ∧
    hpoCandA.sampled ⊆ hpoCandA.space ∧ hpoCandB.sampled ⊆ hpoCandB.space ∧
    hpoCandA.hasPipe = true ∧ hpoCandB.hasPipe = true ∧
    hpoCandA.space ≠ [] ∧ hpoCandB.space ≠ [] ∧
    run_hpo_top2 [hpoCandA, hpoCandB] = Except.ok ("HistGBR", 5) ∧
    (5 : ℚ) < hpoCandA.pre_cv_r2 ∧ hpoCandB.pre_cv_r2 ≤ hpoCandA.pre_cv_r2 := by
  refine ⟨by decide, by decide, by decide, by decide, rfl, rfl, by decide, by decide,
    ?_, by decide, by decide⟩
  rfl

/-- Claim C8, amended: for two available candidates with non-empty parameter
distributions, `run_hpo_top2` returns a single winner whose score is the
best score found by either candidate's randomized search, hence at least
every sampled configuration's score; it is ≥ the better pre-tuning
cross-validated R2 only when some sampled configuration scores at least that
value (for example when the pre-search configuration is actually among the
sampled ones and is scored on the same folds), which the randomized search
does not guarantee. -/
theorem C8_winner_bounds_sampled (c₁ c₂ : HPOCandidate)
    (h₁p : c₁.hasPipe = true) (h₂p : c₂.hasPipe = true)
    (h₁d : c₁.space ≠ []) (h₂d : c₂.space ≠ [])
    (h₁s : c₁.sampled ≠ []) (h₂s : c₂.sampled ≠ [])
    (x : ℚ) (hx : x ∈ c₁.sampled ∨ x ∈ c₂.sampled) :
    ∃ n s, run_hpo_top2 [c₁, c₂] = Except.ok (n, s) ∧ x ≤ s := by
  obtain ⟨m₁, hm₁⟩ := max?_isSome_of_ne_nil _ h₁s
  obtain ⟨m₂, hm₂⟩ := max?_isSome_of_ne_nil _ h₂s
  have hb₁ : searchBestScore c₁ = some m₁ := by
    simp [searchBestScore, h₁p, isEmpty_false_of_ne_nil _ h₁d, hm₁]
  have hb₂ : searchBestScore c₂ = some m₂ := by
    simp [searchBestScore, h₂p, isEmpty_false_of_ne_nil _ h₂d, hm₂]
  have hrun : run_hpo_top2 [c₁, c₂] =
      (if m₁ < m₂ then Except.ok (c₂.name, m₂) else Except.ok (c₁.name, m₁)) := by
    unfold run_hpo_top2
    simp only [List.take, List.foldl]
    rw [show hpoStep none c₁ = some (c₁.name, m₁) by unfold hpoStep; rw [hb₁]]
    rw [show hpoStep (some (c₁.name, m₁)) c₂ =
        (if m₁ < m₂ then some (c₂.name, m₂) else some (c₁.name, m₁)) by
      unfold hpoStep; rw [hb₂]]
    by_cases hlt : m₁ < m₂ <;> simp [hlt]
  by_cases hlt : m₁ < m₂
  · refine ⟨c₂.name, m₂, by rw [hrun, if_pos hlt], ?_⟩
    rcases hx with hx | hx
    · exact (le_of_mem_max? _ _ _ hx hm₁).trans (le_of_lt hlt)
    · exact le_of_mem_max? _ _ _ hx hm₂
  · refine ⟨c₁.name, m₁, by rw [hrun, if_neg hlt], ?_⟩
    rcases hx with hx | hx
    · exact le_of_mem_max? _ _ _ hx hm₁
    · exact (le_of_mem_max? _ _ _ hx hm₂).trans (le_of_not_lt hlt)

/-- Witness for the amended claim C8 at the two concrete candidates. -/
theorem C8_winner_bounds_sampled_witness :
    ∃ n s, run_hpo_top2 [hpoCandA, hpoCandB] = Except.ok (n, s) ∧ (5 : ℚ) ≤ s :=
  C8_winner_bounds_sampled hpoCandA hpoCandB rfl rfl (by decide) (by decide)
    (by decide) (by decide) 5 (Or.inl (by decide))

/-- Claim C9, as stated, is false on the code: a table that has the (trimmed)
target column and a non-empty resolved numeric feature list can still make
`prepare_ml_data` raise, because `train_test_split` raises when the row count
leaves an empty train or test part (here: zero rows). -/
theorem C9_raises_on_small_table :
    "qe(mg/g)" ∈ smallTable.cols.map stripLabel ∧
    canonical_num_feats.filter
      (fun c => decide (c ∈ smallTable.cols.map stripLabel)) ≠ [] ∧
    prepRaises (prepare_ml_data smallTable "qe(mg/g)") = true := by
  refine ⟨by decide, by decide, by decide⟩

/-- Claim C9, amended: on a table with distinct trimmed column labels,
`prepare_ml_data` raises exactly when the target column is absent from the
trimmed columns, or both resolved feature lists are empty, or the table has
fewer than two rows (in which case scikit-learn's `train_test_split` with
`test_size = 0.2` produces an empty train or test part); missing canonical
numeric features are reported non-fatally. -/
theorem C9_raises_iff (t : MLTable) (target_col : String)
    (_hnd : (t.cols.map stripLabel).Nodup) :
    prepRaises (prepare_ml_data t target_col) = true ↔
      (target_col ∉ t.cols.map stripLabel ∨
        (canonical_num_feats.filter (fun c => decide (c ∈ t.cols.map stripLabel)) = [] ∧
          "Activation_Atmosphere" ∉ t.cols.map stripLabel) ∨
        t.nrows < 2) := by
  simp only [prepare_ml_data, prepRaises]
  split_ifs with h1 hAA hemp hsp hemp2 hsp2 <;>
    simp_all [List.isEmpty_iff, nTestOfRows] <;> omega

/-- Witness for the amended claim C9 at the concrete zero-row table. -/
theorem C9_raises_iff_witness :
    prepRaises (prepare_ml_data smallTable "qe(mg/g)") = true :=
  (C9_raises_iff smallTable "qe(mg/g)" (by decide)).mpr (Or.inr (Or.inr (by decide)))

/-- Claim C10: for every submitted single record carrying both pore volumes
with the micropore volume strictly greater than the total pore volume, the
handler halts before the pipeline's predict is invoked — the outcome is never
a prediction, does not depend on the predictor at all, and, once the drug and
atmosphere gates pass, is exactly the pore-consistency error stop (so no
comparison or sweep is produced either, since those run only after a
successful prediction). -/
theorem C10_pore_gate_stops (inp : SingleInput)
    (predict₁ predict₂ : SingleInput → Option ℚ) (t m : ℚ)
    (ht : inp.total_pore = some t) (hm : inp.micro_pore = some m) (hlt : t < m) :
    (∀ q, single_submit inp predict₁ ≠ SingleOutcome.predicted q) ∧
    single_submit inp predict₁ = single_submit inp predict₂ ∧
    (inp.target_phar ≠ none → inp.atmosphere ≠ none →
      single_submit inp predict₁ = SingleOutcome.stoppedPoreInconsistent) := by
  cases hd : inp.target_phar with
  | none =>
    refine ⟨fun q => ?_, ?_, fun hne _ => absurd rfl hne⟩ <;>
      simp [single_submit, hd]
  | some d =>
    cases ha : inp.atmosphere with
    | none =>
      refine ⟨fun q => ?_, ?_, fun _ hne => absurd rfl hne⟩ <;>
        simp [single_submit, hd, ha]
    | some a =>
      have hstop : ∀ p : SingleInput → Option ℚ,
          single_submit inp p = SingleOutcome.stoppedPoreInconsistent := by
        intro p
        simp [single_submit, hd, ha, ht, hm, hlt]
      refine ⟨fun q => ?_, ?_, fun _ _ => hstop predict₁⟩
      · rw [hstop predict₁]
        exact fun hcontra => SingleOutcome.noConfusion hcontra
      · rw [hstop predict₁, hstop predict₂]

/-- Witness for claim C10 at the concrete inconsistent record. -/
theorem C10_pore_gate_stops_witness :
    single_submit badPoreInput (fun _ => some 5) = SingleOutcome.stoppedPoreInconsistent :=
  (C10_pore_gate_stops badPoreInput (fun _ => some 5) (fun _ => none) 1 2 rfl rfl
    (by norm_num)).2.2 (by simp [badPoreInput]) (by simp [badPoreInput])

end AquaML
